import Mathlib

/-!
Verification development for the flat-record to nested-document transformation
engine of `src/app/core.py` (SaWinHETUtility).  The Python functions
`split_entries`, `normalize_value`, `process_boundary`, `process_mpd`,
`process_mps`, `process_other` and `transform_json` are shallowly embedded as
executable Lean definitions over a JSON-like value type, and the frozen claims
about them are settled as theorems below.

Modelling conventions:
* Python values are modelled by `JValue`.  Finite floats carry their exact
  rational value; `float()` on a numeric literal is modelled in two stages:
  the exact rational value of the literal (`pyParseFloat`) followed by
  binary64 round-to-nearest-even with overflow to ±infinity (`pyRoundF64`),
  so the `int(float(s))` integer branch of `normalize_value` rounds exactly
  as the program does.  Non-finite floats are the `JValue.floatInf`
  constructor (NaN and the textual inf/nan literals are not modelled).
* Python dicts preserve insertion order; they are modelled as association
  lists (`PyDict`) with insertion-order update (`dictSet`).
* Python strings are modelled by `String`; `str.strip()` is modelled over the
  ASCII whitespace characters (Python additionally strips rarer Unicode
  whitespace, which no claim exercises).
-/

set_option maxHeartbeats 1000000
set_option maxRecDepth 4000

inductive JValue : Type where
  | null : JValue
  | bool : Bool → JValue
  | int : Int → JValue
  | float : Rat → JValue
  | floatInf : Bool → JValue
  | str : String → JValue
  | arr : List JValue → JValue
  | obj : List (String × JValue) → JValue

/-- Insertion-ordered dictionary with `String` keys, the shape of every dict
built by `core.py`. -/
abbrev PyDict := List (String × JValue)

/-- Python dict lookup `d.get(k)` / `d[k]` (as an `Option`). -/
def dictGet : PyDict → String → Option JValue
  | [], _ => none
  | e :: t, k => if e.1 = k then some e.2 else dictGet t k

/-- Python dict assignment `d[k] = v`: replaces the value in place if the key
is present (keeping its position), otherwise appends a new key at the end. -/
def dictSet : PyDict → String → JValue → PyDict
  | [], k, v => [(k, v)]
  | e :: t, k, v => if e.1 = k then (k, v) :: t else e :: dictSet t k v

/-- The ASCII whitespace characters stripped by Python `str.strip()`. -/
def pyWs (c : Char) : Bool :=
  c = ' ' || c = '\t' || c = '\n' || c = '\r' || c = '\x0b' || c = '\x0c'

/-- Python `s.strip()` (ASCII whitespace subset). -/
def pyStrip (s : String) : String :=
  ⟨((s.data.dropWhile pyWs).reverse.dropWhile pyWs).reverse⟩

/-- Numeric value of a list of ASCII digit characters. -/
def digitsVal (cs : List Char) : Nat :=
  cs.foldl (fun a c => a * 10 + (c.toNat - 48)) 0

/-- Rational `10^e` for an integer exponent, i.e. for an integer exponent. -/
def pow10 (e : Int) : Rat :=
  if 0 ≤ e then ((10 : Rat) ^ e.toNat) else (1 : Rat) / ((10 : Rat) ^ (-e).toNat)

/-- Exponent suffix of a Python float literal: optional sign then digits,
consuming the whole remainder. -/
def parseExpVal (cs : List Char) : Option Int :=
  match cs with
  | '+' :: t => if !t.isEmpty && t.all Char.isDigit then some ((digitsVal t : Nat) : Int) else none
  | '-' :: t => if !t.isEmpty && t.all Char.isDigit then some (-((digitsVal t : Nat) : Int)) else none
  | t => if !t.isEmpty && t.all Char.isDigit then some ((digitsVal t : Nat) : Int) else none

/-- Unsigned part of the Python `float()` literal grammar:
`digits [. digits] [e/E exp]` or `. digits [e/E exp]`, with at least one digit
in the integer-or-fraction part.  (The special literals `inf`/`nan` and digit
underscores accepted by Python are not modelled; no claim exercises them.)
The exact rational value of the literal is returned. -/
def parseUnsignedFloat (cs : List Char) : Option Rat :=
  let ip := cs.takeWhile Char.isDigit
  let r1 := cs.dropWhile Char.isDigit
  match r1 with
  | [] => if ip.isEmpty then none else some ((digitsVal ip : Nat) : Rat)
  | '.' :: r2 =>
    let fp := r2.takeWhile Char.isDigit
    let r3 := r2.dropWhile Char.isDigit
    if ip.isEmpty && fp.isEmpty then none
    else
      let base : Rat := ((digitsVal ip : Nat) : Rat) +
        ((digitsVal fp : Nat) : Rat) / ((10 : Rat) ^ fp.length)
      match r3 with
      | [] => some base
      | c :: r4 =>
        if c = 'e' ∨ c = 'E' then (parseExpVal r4).map (fun e => base * pow10 e) else none
  | c :: r4 =>
    if (c = 'e' ∨ c = 'E') && !ip.isEmpty then
      (parseExpVal r4).map (fun e => ((digitsVal ip : Nat) : Rat) * pow10 e)
    else none

/-- The exact rational value of a Python float literal (already stripped):
optional sign then the unsigned literal grammar.  Python `float(s)` is this
value rounded to binary64 by `pyRoundF64` below. -/
def pyParseFloat (s : String) : Option Rat :=
  if s.data.head? = some '+' then parseUnsignedFloat s.data.tail
  else if s.data.head? = some '-' then (parseUnsignedFloat s.data.tail).map (fun q => -q)
  else parseUnsignedFloat s.data

/-- The regex `-?\d+` of `core.py` line 52 (`re.fullmatch`), restricted to the
ASCII digits: an optional minus sign followed by one or more digits.  Note the
regex does NOT admit a plus sign. -/
def isIntLit (s : String) : Bool :=
  let ds := if s.data.head? = some '-' then s.data.tail else s.data
  !ds.isEmpty && ds.all Char.isDigit

/-- The integer denoted by a string matching `isIntLit`. -/
def intLitVal (s : String) : Int :=
  if s.data.head? = some '-' then -((digitsVal s.data.tail : Nat) : Int)
  else ((digitsVal s.data : Nat) : Int)

/-- Python `int(x)` on a float: truncation toward zero.  On the exact-rational
float model this is truncating division of numerator by denominator. -/
def pyTrunc (q : Rat) : Int := q.num.tdiv (q.den : Int)

/-- Floor of the base-2 logarithm of a positive natural number, computed with
a structural fuel argument (the fuel `n` itself always suffices, since the
recursion halves `n` at every step). -/
def natLog2Aux : Nat → Nat → Nat
  | 0, _ => 0
  | fu + 1, n => if n ≤ 1 then 0 else natLog2Aux fu (n / 2) + 1

def natLog2fl (n : Nat) : Nat := natLog2Aux n n

/-- Round the nonnegative rational `n / d` (with `d > 0`) to the nearest
integer, ties to even. -/
def roundNEPair (n d : Nat) : Nat :=
  let f := n / d
  let r := n % d
  if 2 * r > d then f + 1
  else if 2 * r < d then f
  else if f % 2 = 0 then f else f + 1

/-- Round an exact rational to the IEEE-754 binary64 value that Python
`float()` produces for a literal of that exact value: round-to-nearest-even
at 53 significant bits, subnormal values on the fixed `2^(-1074)` grid,
underflow to `0.0`, and overflow to ±infinity (`none`).  The finite result is
returned as its exact rational value.  Integers of magnitude at most `2^53`
are binary64-exact, which the first branches return directly; the general
branch computes `floor (log2 |q|)`, scales to the ulp grid and rounds ties to
even. -/
def pyRoundF64 (q : Rat) : Option Rat :=
  if q.num = 0 then some 0
  else if q.den = 1 ∧ q.num.natAbs ≤ 2 ^ 53 then some q
  else
    let n := q.num.natAbs
    let d := q.den
    let e : Int :=
      if d ≤ n then (natLog2fl (n / d) : Int)
      else
        let j := natLog2fl (d / n)
        if n * 2 ^ j = d then -(j : Int) else -(j : Int) - 1
    let pe : Int := max (e - 52) (-1074)
    let m : Nat :=
      if 0 ≤ pe then roundNEPair n (d * 2 ^ pe.toNat)
      else roundNEPair (n * 2 ^ (-pe).toNat) d
    if 0 ≤ pe ∧ 2 ^ 1024 ≤ m * 2 ^ pe.toNat then none
    else
      let v : Rat :=
        if 0 ≤ pe then ((m * 2 ^ pe.toNat : Nat) : Rat)
        else ((m : Nat) : Rat) / (((2 : Nat) ^ (-pe).toNat : Nat) : Rat)
      some (if q.num < 0 then -v else v)

/-- Function `normalize_value` (core.py lines 29-56): booleans/numbers/null and
non-strings pass through; the exact literals "TRUE"/"FALSE"/"null" become
true/false/null; otherwise strip, keep the original if blank, then
`float(s)` — modelled as the exact literal value rounded to binary64 — with
an `int()` downcast when the stripped string matches `-?\d+`, falling back to
the original string when `float()` fails.  One branch of the program does not
return: when the integer regex matches but `float(s)` overflows to infinity
(about 309 digits or more), Python raises an uncaught OverflowError from
`int(±inf)` — `core.py` catches only ValueError.  The total model returns the
exact integer there; `normalizeRaises` marks exactly those inputs, and no
theorem below depends on them (the C3 bound `2^53` lies far inside the finite
range). -/
def normalize_value (raw : JValue) : JValue :=
  match raw with
  | .str r =>
    if r = "TRUE" then .bool true
    else if r = "FALSE" then .bool false
    else if r = "null" then .null
    else
      let s := pyStrip r
      if s = "" then .str r
      else
        match pyParseFloat s with
        | some num =>
          match pyRoundF64 num with
          | some f => if isIntLit s then .int (pyTrunc f) else .float f
          | none =>
            if isIntLit s then .int (pyTrunc num) else .floatInf (decide (num < 0))
        | none => .str r
  | v => v

/-- The inputs on which the Python `normalize_value` raises an uncaught
OverflowError (integer regex matched, `float(s)` overflowed to infinity):
on these, and only these, the total model above diverges from the program. -/
def normalizeRaises : JValue → Bool
  | .str r =>
    if r = "TRUE" ∨ r = "FALSE" ∨ r = "null" then false
    else
      let s := pyStrip r
      if s = "" then false
      else
        match pyParseFloat s with
        | some num => isIntLit s && (pyRoundF64 num).isNone
        | none => false
  | _ => false

/-- Whether the character list `cs` begins with `pat`. -/
def listStartsWith : List Char → List Char → Bool
  | _, [] => true
  | [], _ :: _ => false
  | c :: t, p :: q => c == p && listStartsWith t q

/-- Python `s.startswith(pat)`. -/
def strStartsWith (s pat : String) : Bool :=
  listStartsWith s.data pat.data

/-- Split at the first occurrence of the nonempty separator `sep`: the parts
before and after it, or `none` when `sep` does not occur. -/
def splitFirstAux (sep : List Char) : List Char → Option (List Char × List Char)
  | [] => none
  | c :: t =>
    if listStartsWith (c :: t) sep then some ([], (c :: t).drop sep.length)
    else (splitFirstAux sep t).map (fun r => (c :: r.1, r.2))

/-- Python `s.split(sep)` (nonempty `sep`) on character lists.  The fuel is
bounded below by the number of separator occurrences plus one (each
occurrence of the nonempty separator consumes at least one character of the
remainder), so it is never exhausted when called with `length + 1`. -/
def splitAllAux (sep : List Char) : Nat → List Char → List (List Char)
  | 0, cs => [cs]
  | fu + 1, cs =>
    match splitFirstAux sep cs with
    | none => [cs]
    | some r => r.1 :: splitAllAux sep fu r.2

/-- Python `s.split(sep)` for a nonempty separator. -/
def strSplit (s sep : String) : List String :=
  (splitAllAux sep.data (s.data.length + 1) s.data).map (fun l => ⟨l⟩)

/-- Python `s.split(pat, 1)[1]` packaged as an `Option`: the part of `s`
after the first occurrence of `pat`, or `none` when `pat` does not occur
(where the Python unpacking at core.py line 227 would raise `ValueError`;
every entry routed to `process_mps` carries the family marker, so that case
is unreachable there). -/
def splitAfterFirst (s pat : String) : Option String :=
  (splitFirstAux pat.data s.data).map (fun r => ⟨r.2⟩)

/-- Function `split_entries` (core.py lines 9-25): route each entry by key prefix into
the boundary / mpd / mps / other streams, preserving input order. -/
def split_entries :
    List (String × JValue) →
      List (String × JValue) × List (String × JValue) ×
      List (String × JValue) × List (String × JValue)
  | [] => ([], [], [], [])
  | e :: rest =>
    let r := split_entries rest
    if strStartsWith e.1 "boundaryAndOpeningStructures__" then
      (e :: r.1, r.2.1, r.2.2.1, r.2.2.2)
    else if strStartsWith e.1 "modernisationProposalDetails__" then
      (r.1, e :: r.2.1, r.2.2.1, r.2.2.2)
    else if strStartsWith e.1 "modernisationProposalsOfBuildingServicesSystems__" then
      (r.1, r.2.1, e :: r.2.2.1, r.2.2.2)
    else
      (r.1, r.2.1, r.2.2.1, e :: r.2.2.2)

/-- Python `str(x)`.  Scalars are rendered exactly as Python renders them
(`None`, `True`/`False`, decimal integers, the string itself).  For floats
(idealized as exact rationals) only integral values are rendered in Python's
form (`"n.0"`); non-integral floats and containers are rendered approximately
(Python's shortest-roundtrip float repr and quoted container repr are not
reproduced) — no claim evaluates `str()` on such values. -/
def pyStr : JValue → String
  | .null => "None"
  | .bool b => if b then "True" else "False"
  | .int n => toString n
  | .float q =>
    if q.den = 1 then toString q.num ++ ".0"
    else toString q.num ++ "/" ++ toString q.den
  | .floatInf b => if b then "-inf" else "inf"
  | .str s => s
  | .arr xs => "[" ++ String.intercalate ", " (xs.attach.map (fun x => pyStr x.1)) ++ "]"
  | .obj m =>
    "\x7b" ++ String.intercalate ", " (m.attach.map (fun e => e.1.1 ++ ": " ++ pyStr e.1.2)) ++ "\x7d"
  decreasing_by
  · have h := List.sizeOf_lt_of_mem x.2
    simp only [JValue.arr.sizeOf_spec]
    omega
  · have h1 := List.sizeOf_lt_of_mem e.2
    simp only [JValue.obj.sizeOf_spec]
    have h2 : sizeOf e.1.2 < sizeOf e.1 := by
      rcases e with ⟨⟨a, b⟩, hm⟩
      simp only [Prod.mk.sizeOf_spec]
      omega
    omega

/-- The Python test `x is None or (isinstance(x, str) and x.strip() == "")`
used to drop stride-4 windows (on their quality field, core.py line 74) and
stride-10 windows (on their structure-type field, line 116). -/
def isNoneOrBlankStr (v : JValue) : Bool :=
  match v with
  | .null => true
  | .str s => pyStrip s == ""
  | _ => false

/-- The stride-4 slicing `entries[i:i+4]` for `i = 0, 4, 8, …`: consecutive
non-overlapping windows in input order, the last possibly shorter than 4. -/
def chunks4 {α : Type} : List α → List (List α)
  | a :: b :: c :: d :: t => [a, b, c, d] :: chunks4 t
  | [] => []
  | l => [l]

/-- The stride-10 slicing `entries[i:i+10]`. -/
def chunks10 {α : Type} : List α → List (List α)
  | a :: b :: c :: d :: e :: f :: g :: h :: i :: j :: t =>
    [a, b, c, d, e, f, g, h, i, j] :: chunks10 t
  | [] => []
  | l => [l]

/-- The `structures_by_type` ordered dict of `process_boundary`: the record
dict `{"typeOfStructure": k, "energeticQualities": qs}` stored under key `k`
is represented by the pair `(k, qs)` (its two fields are materialized by
`boundaryRecord`; appending to the record's inner list is the only mutation).
First occurrence of a key appends a fresh record at the end; later
occurrences append the quality entry to the existing record in place. -/
def bUpsert (st : List (String × List PyDict)) (k : String) (q : PyDict) :
    List (String × List PyDict) :=
  if st.any (fun e => e.1 == k) then
    st.map (fun e => if e.1 == k then (e.1, e.2 ++ [q]) else e)
  else st ++ [(k, [q])]

/-- One iteration of the `process_boundary` loop (core.py lines 63-90): skip
short windows (`len(group) < 4: continue`) and blank-quality windows,
otherwise upsert keyed by `str(type_of_structure)`.  (`chunks4` only ever
produces windows of length at most 4, so the catch-all covers exactly the
short trailing window.) -/
def boundary_step (st : List (String × List PyDict)) :
    List (String × JValue) → List (String × List PyDict)
  | [g0, g1, g2, g3] =>
    let type_of_structure := normalize_value g0.2
    let quality := normalize_value g1.2
    let u := normalize_value g2.2
    let dimension := normalize_value g3.2
    if isNoneOrBlankStr quality then st
    else
      bUpsert st (pyStr type_of_structure)
        [("quality", quality), ("U", u), ("dimension", dimension)]
  | _ => st

/-- Materialize one `structures_by_type` entry as the record dict built at
core.py lines 79-82. -/
def boundaryRecord (e : String × List PyDict) : PyDict :=
  [("typeOfStructure", .str e.1), ("energeticQualities", .arr (e.2.map JValue.obj))]

/-- Function `process_boundary` (core.py lines 60-92). -/
def process_boundary (entries : List (String × JValue)) : List PyDict :=
  ((chunks4 entries).foldl boundary_step []).map boundaryRecord

/-- One iteration of the `process_mpd` loop (core.py lines 99-138): skip short
windows and windows with a blank structure type, otherwise append one
proposal record. -/
def mpd_step (acc : List PyDict) : List (String × JValue) → List PyDict
  | [g0, g1, g2, g3, g4, g5, g6, g7, g8, g9] =>
    let structure_type := normalize_value g0.2
    let structure_note := normalize_value g1.2
    let structure_surface_area := normalize_value g2.2
    let air_tightness := normalize_value g3.2
    let note := normalize_value g4.2
    let current_state_value := normalize_value g5.2
    let good_u := normalize_value g6.2
    let good_dimensions := normalize_value g7.2
    let excellent_u := normalize_value g8.2
    let excellent_dimensions := normalize_value g9.2
    if isNoneOrBlankStr structure_type then acc
    else
      acc ++ [[("structureType", structure_type),
               ("structureNote", structure_note),
               ("structureSurfaceArea", structure_surface_area),
               ("airTightness", air_tightness),
               ("note", note),
               ("currentStateValue", current_state_value),
               ("proposalEnergeticQualities", .arr
                 [.obj [("quality", .str "good"), ("u", good_u),
                        ("dimension", good_dimensions)],
                  .obj [("quality", .str "excellent"), ("u", excellent_u),
                        ("dimension", excellent_dimensions)]])]]
  | _ => acc

/-- Function `process_mpd` (core.py lines 96-140). -/
def process_mpd (entries : List (String × JValue)) : List PyDict :=
  (chunks10 entries).foldl mpd_step []

/-- Numeric view of a value, for Python `==`: Python compares booleans,
ints and floats by numeric value (`True == 1`, `1 == 1.0`). -/
def jnum : JValue → Option Rat
  | .bool b => some (if b then 1 else 0)
  | .int n => some ((n : Int) : Rat)
  | .float q => some q
  | _ => none

/-- Python equality (`==`) as used by the `recommended_by_cat` dict key
lookup: numbers by numeric value, strings and `None` structurally.  Lists and
dicts are unhashable in Python (using one as a dict key raises `TypeError`
before any comparison); they are modelled as equal to nothing. -/
def pyEq (a b : JValue) : Bool :=
  match jnum a, jnum b with
  | some x, some y => x == y
  | _, _ =>
    match a, b with
    | .null, .null => true
    | .str s, .str t => s == t
    | .floatInf x, .floatInf y => x == y
    | _, _ => false

/-- Equality of `recommended_by_cat` keys (`None` or a category value). -/
def catKeyEq : Option JValue → Option JValue → Bool
  | none, none => true
  | some a, some b => pyEq a b
  | _, _ => false

/-- The Python test `cat_value in ("", None)` (core.py line 165) and
`value in ("", None)` (line 312): `==`-membership, true exactly for the empty
string and `None`. -/
def isEmptyStrOrNone (v : JValue) : Bool :=
  match v with
  | .null => true
  | .str s => s == ""
  | _ => false

/-- The mutable accumulators of `process_mps` (core.py lines 145-155).  In
Python `current_recommended` aliases an entry of the `recommended_by_cat`
ordered dict (every assignment to it comes from `get_or_create_recommended`);
the alias is modelled by remembering the entry's key. -/
structure MpsState where
  systems : List PyDict
  current_system : Option PyDict
  current_actual : Option PyDict
  recommended_by_cat : Option (List (Option JValue × PyDict))
  current_recommended : Option (Option JValue)
  current_element : Option PyDict

/-- Function `get_or_create_recommended` (core.py lines 157-179): normalize the
category (empty string / None collapse to the `None` key), return-or-create
the group dict for that key, and make it current. -/
def get_or_create_recommended (st : MpsState) (cat_value : JValue) : MpsState :=
  let m := st.recommended_by_cat.getD []
  let key : Option JValue := if isEmptyStrOrNone cat_value then none else some cat_value
  if (m.find? (fun e => catKeyEq e.1 key)).isSome then
    { st with recommended_by_cat := some m, current_recommended := some key }
  else
    let rec1 : PyDict :=
      match key with
      | none => [("systemElements", .arr [])]
      | some _ => [("modernisationCategory", cat_value), ("systemElements", .arr [])]
    { st with recommended_by_cat := some (m ++ [(key, rec1)]),
              current_recommended := some key }

/-- Python `current_recommended.setdefault("systemElements", []).append(el)`
(core.py line 188).  Groups are always created carrying a `systemElements`
list, so the non-list case (where Python would raise) is unreachable. -/
def appendSystemElement (g : PyDict) (el : PyDict) : PyDict :=
  match dictGet g "systemElements" with
  | some (.arr l) => dictSet g "systemElements" (.arr (l ++ [.obj el]))
  | some _ => g
  | none => dictSet g "systemElements" (.arr [.obj el])

/-- Function `finalize_element` (core.py lines 181-189): flush the open element into
the current recommendation group, auto-creating the category-less group when
no group is selected yet. -/
def finalize_element (st : MpsState) : MpsState :=
  match st.current_element with
  | none => st
  | some el =>
    let st1 :=
      match st.current_recommended with
      | none => get_or_create_recommended st .null
      | some _ => st
    match st1.current_recommended with
    | some key =>
      let m := st1.recommended_by_cat.getD []
      { st1 with
        recommended_by_cat :=
          some (m.map (fun e => if catKeyEq e.1 key then (e.1, appendSystemElement e.2 el) else e)),
        current_element := none }
    | none => st1

/-- Python `q == ""` where `q = current_actual.get("quality")` (core.py
line 204): true exactly when the quality field is present and is the empty
string. -/
def qualityIsEmptyStr (act : PyDict) : Bool :=
  match dictGet act "quality" with
  | some (.str s) => s == ""
  | _ => false

/-- Function `finalize_system` (core.py lines 191-220): flush the open element, attach
`actualEnergeticQuality` (nulled out when its quality field is the empty
string), attach the recommendation groups in first-seen order when any exist,
append the system and reset all per-system accumulators. -/
def finalize_system (st : MpsState) : MpsState :=
  match st.current_system with
  | none => st
  | some _ =>
    let st1 := finalize_element st
    match st1.current_system with
    | none => st1
    | some sys0 =>
      let sys1 :=
        match st1.current_actual with
        | none => sys0
        | some act =>
          if qualityIsEmptyStr act then dictSet sys0 "actualEnergeticQuality" .null
          else dictSet sys0 "actualEnergeticQuality" (.obj act)
      let sys2 :=
        match st1.recommended_by_cat with
        | some m =>
          if m.isEmpty then sys1
          else dictSet sys1 "recommendedModernisations" (.arr (m.map (fun e => .obj e.2)))
        | none => sys1
      { systems := st1.systems ++ [sys2], current_system := none, current_actual := none,
        recommended_by_cat := none, current_recommended := none, current_element := none }

/-- The family marker stripped from every mps key (core.py line 226). -/
def mpsPre : String := "modernisationProposalsOfBuildingServicesSystems__"

/-- One iteration of the `process_mps` main loop (core.py lines 223-283). -/
def mps_step (st : MpsState) (entry : String × JValue) : MpsState :=
  let value := normalize_value entry.2
  match splitAfterFirst entry.1 mpsPre with
  | none => st
  | some suffix0 =>
    let suffix : String := ⟨suffix0.data.dropWhile (fun c => c = '_')⟩
    let parts := strSplit suffix "__"
    match parts with
    | [] => st
    | p0 :: pr =>
      if p0 = "buildingServiceSystemType" then
        let st1 := finalize_system st
        { st1 with current_system := some [("buildingServiceSystemType", value)],
                   current_actual := none, recommended_by_cat := none,
                   current_recommended := none, current_element := none }
      else if p0 = "note" ∧ pr = [] then
        let sys := st.current_system.getD []
        { st with current_system := some (dictSet sys "note" value) }
      else if p0 = "actualEnergeticQuality" then
        match pr with
        | [field] =>
          let act := st.current_actual.getD []
          { st with current_actual := some (dictSet act field value) }
        | _ => st
      else if p0 = "recommendedModernisations" then
        match pr with
        | ["modernisationCategory"] =>
          get_or_create_recommended (finalize_element st) value
        | ["systemElements", field] =>
          if field = "name" then
            let st1 := finalize_element st
            { st1 with current_element := some [("name", value)] }
          else if field = "description" then
            let el := st.current_element.getD []
            { st with current_element := some (dictSet el "description" value) }
          else if field = "isExcellentLevel" then
            let el := st.current_element.getD []
            { st with current_element := some (dictSet el "isExcellentLevel" value) }
          else st
        | _ => st
      else st

/-- The initial `process_mps` state (all accumulators `None`, no output). -/
def mpsInit : MpsState :=
  { systems := [], current_system := none, current_actual := none,
    recommended_by_cat := none, current_recommended := none, current_element := none }

/-- Function `process_mps` (core.py lines 144-288): fold the entry stream through the
state machine and finalize the last in-progress system. -/
def process_mps (entries : List (String × JValue)) : List PyDict :=
  (finalize_system (entries.foldl mps_step mpsInit)).systems


/-- The trailing array-suffix pattern `re.match(r"(.+)_\d+$", key)` of
core.py line 322: the whole key splits as a nonempty base, an underscore and
a nonempty trailing digit run (the greedy `.+` makes the digit run the
maximal trailing one); returns the base. -/
def arrSuffix (k : String) : Option String :=
  let rev := k.data.reverse
  let ds := rev.takeWhile Char.isDigit
  let rest := rev.dropWhile Char.isDigit
  if ds.isEmpty then none
  else
    match rest with
    | '_' :: base => if base.isEmpty then none else some ⟨base.reverse⟩
    | _ => none

/-- The nested-path insertion of the `process_other` loop body (core.py lines
315-333): walk/create nested dicts for all but the last path segment (a
non-dict value at an intermediate segment is overwritten by a fresh dict),
then either append under the array base name (trailing numeric suffix,
creating or resetting to an array as needed) or set the field directly. -/
def po_insert (d : PyDict) : List String → JValue → PyDict
  | [], _ => d
  | [k], v =>
    match arrSuffix k with
    | some base =>
      match dictGet d base with
      | some (.arr l) => dictSet d base (.arr (l ++ [v]))
      | _ => dictSet d base (.arr [v])
    | none => dictSet d k v
  | k :: ks, v =>
    let sub : PyDict :=
      match dictGet d k with
      | some (.obj m) => m
      | _ => []
    dictSet d k (.obj (po_insert sub ks v))

/-- The special alternative-energies namespace marker (core.py line 302). -/
def altEnergyPre : String := "usingAlternativeEnergy__alternativeEnergies__"

/-- One iteration of the `process_other` loop (core.py lines 298-333), over
the pair (document so far, collected alternative-energy names). -/
def po_step (acc : PyDict × List String) (entry : String × JValue) : PyDict × List String :=
  let value := normalize_value entry.2
  if strStartsWith entry.1 altEnergyPre then
    match value with
    | .bool true => (acc.1, acc.2 ++ [(strSplit entry.1 "__").getLast?.getD ""])
    | _ => acc
  else if isEmptyStrOrNone value then acc
  else (po_insert acc.1 (strSplit entry.1 "__") value, acc.2)

/-- Function `process_other` (core.py lines 293-340): the generic materializer plus
the final attachment of collected alternative-energy names (Python
`setdefault` on a present non-dict value would raise; that unreachable case
leaves the document unchanged here). -/
def process_other (entries : List (String × JValue)) : PyDict :=
  let r := entries.foldl po_step ([], [])
  if r.2.isEmpty then r.1
  else
    match dictGet r.1 "usingAlternativeEnergy" with
    | some (.obj ua) =>
      dictSet r.1 "usingAlternativeEnergy"
        (.obj (dictSet ua "alternativeEnergies" (.arr (r.2.map JValue.str))))
    | some _ => r.1
    | none =>
      dictSet r.1 "usingAlternativeEnergy"
        (.obj [("alternativeEnergies", .arr (r.2.map JValue.str))])

/-- The standard base64 alphabet, as used by `base64.b64encode`. -/
def b64Char (n : Nat) : Char :=
  "ABCDEFGHIJKLMNOPQRSTUVWXYZabcdefghijklmnopqrstuvwxyz0123456789+/".data.getD n 'A'

/-- Python `base64.b64encode(x).decode("ascii")` over byte values: 3-byte groups
become 4 alphabet characters; a trailing 1- or 2-byte group is padded with
`=`. -/
def base64Encode : List Nat → String
  | [] => ""
  | [b1] => ⟨[b64Char (b1 / 4), b64Char (b1 % 4 * 16), '=', '=']⟩
  | [b1, b2] => ⟨[b64Char (b1 / 4), b64Char (b1 % 4 * 16 + b2 / 16), b64Char (b2 % 16 * 4), '=']⟩
  | b1 :: b2 :: b3 :: t =>
    (⟨[b64Char (b1 / 4), b64Char (b1 % 4 * 16 + b2 / 16),
       b64Char (b2 % 16 * 4 + b3 / 64), b64Char (b3 % 64)]⟩ : String) ++ base64Encode t

/-- A 1-or-2-character all-digit date component, the shape accepted by the
`%m`/`%d`/`%y` directives of `datetime.strptime`. -/
def okDateComp (t : String) : Bool :=
  (t.data.length == 1 || t.data.length == 2) && t.data.all Char.isDigit

def isLeapYear (y : Nat) : Bool :=
  y % 4 == 0 && (y % 100 != 0 || y % 400 == 0)

def daysInMonth (m y : Nat) : Nat :=
  if m = 2 then (if isLeapYear y then 29 else 28)
  else if m = 4 ∨ m = 6 ∨ m = 9 ∨ m = 11 then 30
  else 31

/-- The 1969 pivot of `%y`: 00-68 → 2000-2068, 69-99 → 1969-1999. -/
def fullYear (y : Nat) : Nat := if y ≤ 68 then 2000 + y else 1900 + y

/-- Python `datetime.strptime(s, "%m/%d/%y")` (core.py line 420) as a partial
function returning (two-digit year, month, day): the string must be exactly
month `/` day `/` year with nothing left over, each component 1-2 digits,
month 1-12, day valid for that month of the pivoted year (the `datetime`
constructor validates the calendar, including leap years). -/
def pyStrptimeMDY (s : String) : Option (Nat × Nat × Nat) :=
  match strSplit s "/" with
  | [ms, ds, ys] =>
    if okDateComp ms && okDateComp ds && okDateComp ys then
      let m := digitsVal ms.data
      let d := digitsVal ds.data
      let y := digitsVal ys.data
      if 1 ≤ m ∧ m ≤ 12 ∧ 1 ≤ d ∧ d ≤ daysInMonth m (fullYear y) then some (y, m, d)
      else none
    else none
  | _ => none

def pad2 (n : Nat) : String := if n < 10 then "0" ++ toString n else toString n

/-- Python `.strftime("%y.%m.%d.")`: zero-padded two-digit fields, dot-terminated
(`%y` of the pivoted year is the original two-digit year again). -/
def fmtYMD (ymd : Nat × Nat × Nat) : String :=
  pad2 ymd.1 ++ "." ++ pad2 ymd.2.1 ++ "." ++ pad2 ymd.2.2 ++ "."

/-- Chained subscript read `d[k1][k2]…[kn]` (core.py lines 379-420): `none`
when a key is missing or an intermediate value is not a dict (where Python
raises KeyError/TypeError). -/
def getPath (d : PyDict) : List String → Option JValue
  | [] => none
  | [k] => dictGet d k
  | k :: ks =>
    match dictGet d k with
    | some (.obj m) => getPath m ks
    | _ => none

/-- Chained subscript assignment `d[k1]…[kn] = v`: `none` when an
intermediate key is missing or not a dict. -/
def setPath (d : PyDict) : List String → JValue → Option PyDict
  | [], _ => none
  | [k], v => some (dictSet d k v)
  | k :: ks, v =>
    match dictGet d k with
    | some (.obj m) => (setPath m ks v).map (fun m2 => dictSet d k (.obj m2))
    | _ => none

/-- One mandatory coercion statement `d[…][leaf] = str(d[…][leaf])` (core.py
lines 379-415): fatal when the path cannot be read. -/
def coerceField (d : PyDict) (p : List String) : Except String PyDict :=
  match getPath d p with
  | some v =>
    match setPath d p (.str (pyStr v)) with
    | some d2 => .ok d2
    | none => .error "KeyError"
  | none => .error "KeyError"

/-- A straight-line sequence of coercion statements. -/
def coerceFields (d : PyDict) : List (List String) → Except String PyDict
  | [] => .ok d
  | p :: ps =>
    match coerceField d p with
    | .ok d1 => coerceFields d1 ps
    | .error e => .error e

/-- The twelve `str()` coercion paths of core.py lines 379-415, in program
order. -/
def coercePaths : List (List String) :=
  [["buildingData", "buildingAddress", "houseNumber"],
   ["buildingData", "buildingAddress", "building"],
   ["buildingData", "buildingAddress", "floor"],
   ["buildingData", "buildingAddress", "doorNumber"],
   ["buildingData", "buildingAddress", "staircase"],
   ["buildingData", "topographicalNumber"],
   ["certifierDetails", "address", "houseNumber"],
   ["certifierDetails", "address", "building"],
   ["certifierDetails", "address", "floor"],
   ["certifierDetails", "address", "doorNumber"],
   ["certifierDetails", "address", "staircase"],
   ["certifierDetails", "topographicalNumber"]]

/-- The phone-number coercion
`d["certifierDetails"]["phoneNumber"] = "+" + str(…)` (core.py lines
416-418). -/
def phoneStep (d : PyDict) : Except String PyDict :=
  match getPath d ["certifierDetails", "phoneNumber"] with
  | some v =>
    match setPath d ["certifierDetails", "phoneNumber"] (.str ("+" ++ pyStr v)) with
    | some d2 => .ok d2
    | none => .error "KeyError"
  | none => .error "KeyError"

/-- All mandatory presentation coercions of core.py lines 379-418. -/
def coerceAll (d : PyDict) : Except String PyDict :=
  match coerceFields d coercePaths with
  | .ok d1 => phoneStep d1
  | .error e => .error e

/-- The date reformatting statement (core.py line 420): fatal when the
validity block or the date field is absent, when the field is not a string
(`strptime` raises TypeError), or when the string does not match
`%m/%d/%y`. -/
def applyDateFix (d : PyDict) : Except String PyDict :=
  match getPath d ["validity", "siteInspectionDate"] with
  | some (.str s) =>
    match pyStrptimeMDY s with
    | some ymd =>
      match setPath d ["validity", "siteInspectionDate"] (.str (fmtYMD ymd)) with
      | some d2 => .ok d2
      | none => .error "KeyError"
    | none => .error "ValueError"
  | some _ => .error "TypeError"
  | none => .error "KeyError"

/-- One image attachment as received by `transform_json`: mandatory raw
content bytes, optional note and category (read in Python with
`img["content"]`, `img.get("note", "")`, `img.get("category")`). -/
structure Image where
  content : List Nat
  note : Option JValue
  category : Option JValue

/-- One photo record (core.py lines 428-441): category, note (defaulting to
the empty string) and base64-encoded content. -/
def photoRec (img : Image) : JValue :=
  .obj [("category", img.category.getD .null),
        ("note", img.note.getD (.str "")),
        ("content", .str (base64Encode img.content))]

/-- Core.py lines 359-376 of `transform_json`: split the data entries, run
the four reconstructors and attach each non-empty specialized section to the
generic document. -/
def attachSections (entries : List (String × JValue)) : PyDict :=
  let q := split_entries entries
  let boundary_processed := process_boundary q.1
  let mpd_processed := process_mpd q.2.1
  let mps_processed := process_mps q.2.2.1
  let result := process_other q.2.2.2
  let result :=
    if boundary_processed.length > 0 then
      dictSet result "boundaryAndOpeningStructures" (.arr (boundary_processed.map JValue.obj))
    else result
  let result :=
    if mpd_processed.length > 0 then
      dictSet result "modernisationProposalDetails" (.arr (mpd_processed.map JValue.obj))
    else result
  if mps_processed.length > 0 then
    dictSet result "modernisationProposalsOfBuildingServicesSystems"
      (.arr (mps_processed.map JValue.obj))
  else result

/-- Core.py lines 422-443: base64-encode the PDF into its fixed field, then
attach the photo records in input order. -/
def attachAttachments (d : PyDict) (pdf_bytes : List Nat) (images : List Image) : PyDict :=
  let d1 := dictSet d "calculationsPdfFileContent" (.str (base64Encode pdf_bytes))
  dictSet d1 "photos" (.arr (images.map photoRec))

/-- Function `transform_json` (core.py lines 344-445).  The parsed input object's
`data` array (`input_obj.get("data", [])`) is passed directly as the entry
list; a raised Python exception is modelled as `Except.error` (no partial
output escapes). -/
def transform_json (entries : List (String × JValue)) (pdf_bytes : List Nat)
    (images : List Image) : Except String PyDict :=
  let result := attachSections entries
  match coerceAll result with
  | .error e => .error e
  | .ok r1 =>
    match applyDateFix r1 with
    | .error e => .error e
    | .ok r2 => .ok (attachAttachments r2 pdf_bytes images)

/-- A minimal valid flat input: all address/identifier fields read by the
mandatory coercions, the phone number, and the site-inspection date. -/
def sampleEntries : List (String × JValue) :=
  [("buildingData__buildingAddress__houseNumber", .str "12"),
   ("buildingData__buildingAddress__building", .str "A"),
   ("buildingData__buildingAddress__floor", .str "3"),
   ("buildingData__buildingAddress__doorNumber", .str "7"),
   ("buildingData__buildingAddress__staircase", .str "B"),
   ("buildingData__topographicalNumber", .str "456"),
   ("certifierDetails__address__houseNumber", .str "9"),
   ("certifierDetails__address__building", .str "C"),
   ("certifierDetails__address__floor", .str "1"),
   ("certifierDetails__address__doorNumber", .str "2"),
   ("certifierDetails__address__staircase", .str "D"),
   ("certifierDetails__topographicalNumber", .str "789"),
   ("certifierDetails__phoneNumber", .str "36201234567"),
   ("validity__siteInspectionDate", .str "01/02/25")]

/-- Spec-side view of one stride-4 window, following the claim: a full
window whose quality does not normalize to null or a blank string
contributes the pair (string form of its type value, its quality entry);
short and blank-quality windows contribute nothing. -/
def windowKQ : List (String × JValue) → Option (String × PyDict)
  | [g0, g1, g2, g3] =>
    let quality := normalize_value g1.2
    if isNoneOrBlankStr quality then none
    else some (pyStr (normalize_value g0.2),
      [("quality", quality), ("U", normalize_value g2.2),
       ("dimension", normalize_value g3.2)])
  | _ => none

/-- The quality entries contributed for key `k` by the window pairs `ps`, in
window order. -/
def qualsFor (k : String) (ps : List (String × PyDict)) : List PyDict :=
  ps.filterMap (fun p => if p.1 = k then some p.2 else none)

/-- Group window pairs by key in first-seen key order (ignoring keys already
in `seen`): each new key yields one group, placed at its first occurrence,
holding all of that key's quality entries in window order. -/
def groupPairs (seen : List String) : List (String × PyDict) → List (String × List PyDict)
  | [] => []
  | (k, q) :: rest =>
    if k ∈ seen then groupPairs seen rest
    else (k, q :: qualsFor k rest) :: groupPairs (k :: seen) rest

/-- Spec-side formulation of the stride-4 reconstructor, following the
claim's words: slice into stride-4 windows, drop short and null/blank-quality
windows, and group the surviving windows by the string form of their type —
exactly one record per distinct type, placed at the position of the type's
first (counted) occurrence, holding one quality entry per window in window
order. -/
def specBoundary (entries : List (String × JValue)) : List PyDict :=
  (groupPairs [] ((chunks4 entries).filterMap windowKQ)).map boundaryRecord

/-- Two image attachments with and without optional fields. -/
def sample2Images : List Image :=
  [⟨[1, 2, 3], some (.str "front"), some (.str "opening")⟩, ⟨[255], none, none⟩]

/-- The document produced from `sampleEntries` with a different PDF and the
two images above. -/
def sampleDoc2 : PyDict :=
  match transform_json sampleEntries [0, 1, 2] sample2Images with
  | .ok d => d
  | .error _ => []

/-- A mid-stream builder state: one open system and an actual-quality
accumulator whose quality field is the empty string. -/
def c9SampleState : MpsState :=
  { systems := [], current_system := some [("buildingServiceSystemType", .str "Heating")],
    current_actual := some [("quality", .str "")], recommended_by_cat := none,
    current_recommended := none, current_element := none }

theorem parseUnsignedFloat_digits (t : List Char) (hne : t ≠ [])
    (hd : ∀ c ∈ t, c.isDigit = true) :
    parseUnsignedFloat t = some ((digitsVal t : Nat) : Rat) := by
  have h1 : t.takeWhile Char.isDigit = t := List.takeWhile_eq_self_iff.mpr hd
  have h2 : t.dropWhile Char.isDigit = [] := List.dropWhile_eq_nil_iff.mpr hd
  obtain ⟨c, ts, rfl⟩ := List.exists_cons_of_ne_nil hne
  simp only [parseUnsignedFloat, h1, h2]
  simp

theorem pyTrunc_natCast (n : Nat) : pyTrunc ((n : Nat) : Rat) = (n : Int) := by
  simp [pyTrunc, Rat.num_natCast, Rat.den_natCast]

theorem pyTrunc_neg_natCast (n : Nat) : pyTrunc (-((n : Nat) : Rat)) = -((n : Nat) : Int) := by
  simp [pyTrunc, Rat.num_neg_eq_neg_num, Rat.den_neg_eq_den, Rat.num_natCast, Rat.den_natCast]

theorem pyRoundF64_small (q : Rat) (hd : q.den = 1) (hn : q.num.natAbs ≤ 2 ^ 53) :
    pyRoundF64 q = some q := by
  unfold pyRoundF64
  by_cases h0 : q.num = 0
  · have hq : q = 0 := Rat.num_eq_zero.mp h0
    simp [h0, hq]
  · rw [if_neg h0, if_pos ⟨hd, hn⟩]

/-- C3 (counterexample): the claim fails in two independent ways.  The
code's integer regex at core.py line 52 is the plain minus form, so the
plus-signed "+5" falls through to the float branch and yields the float 5.0,
not the integer 5.  And the integer is produced as `int(float(s))`, so
"9007199254740993" (2^53 + 1) yields 9007199254740992 — not the
corresponding integer — because `float()` rounds the literal to binary64
(ties to even at 53 bits). -/
theorem claim_C3_counterexample :
    (normalize_value (.str "+5") = .float 5 ∧
     ¬normalize_value (.str "+5") = .int 5) ∧
    (normalize_value (.str "9007199254740993") = .int 9007199254740992 ∧
     ¬normalize_value (.str "9007199254740993") = .int 9007199254740993) := by
  refine ⟨⟨rfl, ?_⟩, ⟨rfl, ?_⟩⟩
  · intro h
    rw [show normalize_value (JValue.str "+5") = JValue.float 5 from rfl] at h
    exact JValue.noConfusion h
  · intro h
    rw [show normalize_value (JValue.str "9007199254740993") =
        JValue.int 9007199254740992 from rfl] at h
    exact absurd (JValue.int.inj h) (by decide)

/-- C3 (amended): for every string input that is not one of the literals
"TRUE"/"FALSE"/"null", whose trimmed form consists of an optional MINUS sign
followed by one or more digits, and whose magnitude is at most 2^53 (the
range on which binary64 represents integers exactly), `normalize_value`
returns the corresponding integer.  The counterexamples force both
restrictions: a plus-signed numeral falls to the float branch, and beyond
2^53 the `int(float(s))` pipeline returns a rounded integer (and for
literals of about 309 digits or more Python raises an uncaught
OverflowError). -/
theorem claim_C3 (raw : String) (h1 : raw ≠ "TRUE") (h2 : raw ≠ "FALSE")
    (h3 : raw ≠ "null") (h5 : isIntLit (pyStrip raw) = true)
    (h6 : (intLitVal (pyStrip raw)).natAbs ≤ 2 ^ 53) :
    normalize_value (.str raw) = .int (intLitVal (pyStrip raw)) := by
  have hne : pyStrip raw ≠ "" := by
    intro he
    rw [he] at h5
    exact absurd h5 (by decide)
  rcases hs : (pyStrip raw).data with _ | ⟨c, t⟩
  · exact absurd (String.ext hs) hne
  · by_cases hc : c = '-'
    · subst hc
      have h7 : t ≠ [] ∧ ∀ x ∈ t, x.isDigit = true := by
        have h5' := h5
        simp [isIntLit, hs] at h5'
        exact h5'
      have hbound : digitsVal t ≤ 2 ^ 53 := by
        have h6' := h6
        simp [intLitVal, hs] at h6'
        exact h6'
      have hp : pyParseFloat (pyStrip raw) = some (-((digitsVal t : Nat) : Rat)) := by
        simp [pyParseFloat, hs, parseUnsignedFloat_digits t h7.1 h7.2]
      have hr : pyRoundF64 (-((digitsVal t : Nat) : Rat)) =
          some (-((digitsVal t : Nat) : Rat)) := by
        apply pyRoundF64_small
        · rw [Rat.den_neg_eq_den, Rat.den_natCast]
        · rw [Rat.num_neg_eq_neg_num, Rat.num_natCast]
          simpa using hbound
      simp [normalize_value, h1, h2, h3, hne, hp, hr, h5, intLitVal, hs,
        pyTrunc_neg_natCast]
    · have h7 : ∀ x ∈ c :: t, x.isDigit = true := by
        have h5' := h5
        simp [isIntLit, hs, hc] at h5'
        exact (List.forall_mem_cons).2 ⟨h5'.1, h5'.2⟩
      have hbound : digitsVal (c :: t) ≤ 2 ^ 53 := by
        have h6' := h6
        simp [intLitVal, hs, hc] at h6'
        exact h6'
      have hplus : ¬c = '+' := by
        intro hcp
        have := h7 c (by simp)
        rw [hcp] at this
        simp at this
      have hp : pyParseFloat (pyStrip raw) =
          some ((digitsVal (c :: t) : Nat) : Rat) := by
        simp [pyParseFloat, hs, hc, hplus, parseUnsignedFloat_digits (c :: t) (by simp) h7]
      have hr : pyRoundF64 ((digitsVal (c :: t) : Nat) : Rat) =
          some ((digitsVal (c :: t) : Nat) : Rat) := by
        apply pyRoundF64_small
        · rw [Rat.den_natCast]
        · rw [Rat.num_natCast]
          simpa using hbound
      simp [normalize_value, h1, h2, h3, hne, hp, hr, h5, intLitVal, hs, hc,
        pyTrunc_natCast]

/-- C3 (witness): the amended theorem applied at the concrete input `"-42"`
(whose magnitude is far below 2^53), which indeed normalizes to the integer
−42. -/
theorem claim_C3_witness :
    normalize_value (.str "-42") = .int (intLitVal (pyStrip "-42")) ∧
    intLitVal (pyStrip "-42") = -42 :=
  ⟨claim_C3 "-42" (by decide) (by decide) (by decide) (by decide) (by decide), by decide⟩

theorem dictGet_dictSet_self (d : PyDict) (k : String) (v : JValue) :
    dictGet (dictSet d k v) k = some v := by
  induction d with
  | nil => simp [dictSet, dictGet]
  | cons e t ih =>
    by_cases h : e.1 = k
    · simp [dictSet, dictGet, h]
    · simp [dictSet, dictGet, h, ih]

theorem dictGet_dictSet_ne (d : PyDict) (k j : String) (v : JValue) (h : k ≠ j) :
    dictGet (dictSet d k v) j = dictGet d j := by
  induction d with
  | nil => simp [dictSet, dictGet, h]
  | cons e t ih =>
    by_cases he : e.1 = k
    · simp [dictSet, dictGet, he, h]
    · by_cases hj : e.1 = j
      · simp [dictSet, dictGet, he, hj, Ne.symm h]
      · simp [dictSet, dictGet, he, hj, ih]

/-- Normalization is idempotent: every result of a normalization is a
fixed point of normalization. -/
theorem normalize_value_idem (v : JValue) :
    normalize_value (normalize_value v) = normalize_value v := by
  cases v with
  | str r =>
    by_cases h1 : r = "TRUE"
    · simp [normalize_value, h1]
    by_cases h2 : r = "FALSE"
    · simp [normalize_value, h1, h2]
    by_cases h3 : r = "null"
    · simp [normalize_value, h1, h2, h3]
    by_cases h4 : pyStrip r = ""
    · simp [normalize_value, h1, h2, h3, h4]
    rcases hp : pyParseFloat (pyStrip r) with _ | q
    · simp [normalize_value, h1, h2, h3, h4, hp]
    rcases hf : pyRoundF64 q with _ | f
    · by_cases h5 : isIntLit (pyStrip r)
      · simp [normalize_value, h1, h2, h3, h4, hp, hf, h5]
      · simp [normalize_value, h1, h2, h3, h4, hp, hf, h5]
    · by_cases h5 : isIntLit (pyStrip r)
      · simp [normalize_value, h1, h2, h3, h4, hp, hf, h5]
      · simp [normalize_value, h1, h2, h3, h4, hp, hf, h5]
  | null => rfl
  | bool b => rfl
  | int n => rfl
  | float q => rfl
  | floatInf b => rfl
  | arr l => rfl
  | obj m => rfl


theorem four_way_filter_perm {α : Type} (q1 q2 q3 : α → Bool) (l : List α) :
    List.Perm
      (l.filter q1 ++ l.filter (fun a => !q1 a && q2 a) ++
       l.filter (fun a => !q1 a && !q2 a && q3 a) ++
       l.filter (fun a => !q1 a && !q2 a && !q3 a)) l := by
  have S1 := List.filter_append_perm q1 l
  have S2 := List.filter_append_perm q2 (l.filter (fun a => !q1 a))
  have S3 := List.filter_append_perm q3 ((l.filter (fun a => !q1 a)).filter (fun a => !q2 a))
  have e2 : (l.filter (fun a => !q1 a)).filter q2 = l.filter (fun a => !q1 a && q2 a) := by
    rw [List.filter_filter]
    exact List.filter_congr (fun x _ => Bool.and_comm (q2 x) (!q1 x))
  have e2' : (l.filter (fun a => !q1 a)).filter (fun a => !q2 a) =
      l.filter (fun a => !q1 a && !q2 a) := by
    rw [List.filter_filter]
    exact List.filter_congr (fun x _ => Bool.and_comm (!q2 x) (!q1 x))
  have e3 : ((l.filter (fun a => !q1 a)).filter (fun a => !q2 a)).filter q3 =
      l.filter (fun a => !q1 a && !q2 a && q3 a) := by
    rw [e2', List.filter_filter]
    exact List.filter_congr (fun x _ => by cases q1 x <;> cases q2 x <;> cases q3 x <;> rfl)
  have e4 : ((l.filter (fun a => !q1 a)).filter (fun a => !q2 a)).filter (fun a => !q3 a) =
      l.filter (fun a => !q1 a && !q2 a && !q3 a) := by
    rw [e2', List.filter_filter]
    exact List.filter_congr (fun x _ => by cases q1 x <;> cases q2 x <;> cases q3 x <;> rfl)
  rw [← e2, ← e3, ← e4]
  simp only [List.append_assoc]
  refine List.Perm.trans (List.Perm.append_left _ ?_) S1
  refine List.Perm.trans (List.Perm.append_left _ ?_) S2
  exact S3

theorem split_entries_filters (entries : List (String × JValue)) :
    (split_entries entries).1 =
      entries.filter (fun e => strStartsWith e.1 "boundaryAndOpeningStructures__") ∧
    (split_entries entries).2.1 =
      entries.filter (fun e => !strStartsWith e.1 "boundaryAndOpeningStructures__" &&
        strStartsWith e.1 "modernisationProposalDetails__") ∧
    (split_entries entries).2.2.1 =
      entries.filter (fun e => !strStartsWith e.1 "boundaryAndOpeningStructures__" &&
        !strStartsWith e.1 "modernisationProposalDetails__" &&
        strStartsWith e.1 "modernisationProposalsOfBuildingServicesSystems__") ∧
    (split_entries entries).2.2.2 =
      entries.filter (fun e => !strStartsWith e.1 "boundaryAndOpeningStructures__" &&
        !strStartsWith e.1 "modernisationProposalDetails__" &&
        !strStartsWith e.1 "modernisationProposalsOfBuildingServicesSystems__") := by
  induction entries with
  | nil => simp [split_entries]
  | cons e rest ih =>
    obtain ⟨ih1, ih2, ih3, ih4⟩ := ih
    by_cases h1 : strStartsWith e.1 "boundaryAndOpeningStructures__"
    · exact ⟨by simp [split_entries, h1, ih1], by simp [split_entries, h1, ih2],
             by simp [split_entries, h1, ih3], by simp [split_entries, h1, ih4]⟩
    · by_cases h2 : strStartsWith e.1 "modernisationProposalDetails__"
      · exact ⟨by simp [split_entries, h1, h2, ih1], by simp [split_entries, h1, h2, ih2],
               by simp [split_entries, h1, h2, ih3], by simp [split_entries, h1, h2, ih4]⟩
      · by_cases h3 : strStartsWith e.1 "modernisationProposalsOfBuildingServicesSystems__"
        · exact ⟨by simp [split_entries, h1, h2, h3, ih1], by simp [split_entries, h1, h2, h3, ih2],
                 by simp [split_entries, h1, h2, h3, ih3], by simp [split_entries, h1, h2, h3, ih4]⟩
        · exact ⟨by simp [split_entries, h1, h2, h3, ih1], by simp [split_entries, h1, h2, h3, ih2],
                 by simp [split_entries, h1, h2, h3, ih3], by simp [split_entries, h1, h2, h3, ih4]⟩

/-- C4: the entry classifier is an exact, order-preserving partition of the
input: each stream equals the input filtered by its routing predicate (an
entry goes to the first of the three family prefixes its key starts with, in
the fixed priority order, and to the "other" stream when none matches), each
stream is therefore a subsequence of the input (order preserved), and the
four streams concatenated are a permutation of the input (no entry dropped
or duplicated). -/
theorem claim_C4 (entries : List (String × JValue)) :
    ((split_entries entries).1 =
      entries.filter (fun e => strStartsWith e.1 "boundaryAndOpeningStructures__") ∧
     (split_entries entries).2.1 =
      entries.filter (fun e => !strStartsWith e.1 "boundaryAndOpeningStructures__" &&
        strStartsWith e.1 "modernisationProposalDetails__") ∧
     (split_entries entries).2.2.1 =
      entries.filter (fun e => !strStartsWith e.1 "boundaryAndOpeningStructures__" &&
        !strStartsWith e.1 "modernisationProposalDetails__" &&
        strStartsWith e.1 "modernisationProposalsOfBuildingServicesSystems__") ∧
     (split_entries entries).2.2.2 =
      entries.filter (fun e => !strStartsWith e.1 "boundaryAndOpeningStructures__" &&
        !strStartsWith e.1 "modernisationProposalDetails__" &&
        !strStartsWith e.1 "modernisationProposalsOfBuildingServicesSystems__")) ∧
    (split_entries entries).1.Sublist entries ∧
    (split_entries entries).2.1.Sublist entries ∧
    (split_entries entries).2.2.1.Sublist entries ∧
    (split_entries entries).2.2.2.Sublist entries ∧
    List.Perm
      ((split_entries entries).1 ++ (split_entries entries).2.1 ++
       (split_entries entries).2.2.1 ++ (split_entries entries).2.2.2) entries := by
  obtain ⟨h1, h2, h3, h4⟩ := split_entries_filters entries
  refine ⟨⟨h1, h2, h3, h4⟩, ?_, ?_, ?_, ?_, ?_⟩
  · rw [h1]; exact List.filter_sublist entries
  · rw [h2]; exact List.filter_sublist entries
  · rw [h3]; exact List.filter_sublist entries
  · rw [h4]; exact List.filter_sublist entries
  · rw [h1, h2, h3, h4]
    exact four_way_filter_perm _ _ _ entries

theorem chunks4_append {α : Type} (a b : List α) (h : 4 ∣ a.length) :
    chunks4 (a ++ b) = chunks4 a ++ chunks4 b := by
  induction a using chunks4.induct with
  | case1 x1 x2 x3 x4 t ih =>
    simp only [List.cons_append, chunks4, List.append_eq]
    rw [ih (by simpa using h)]
  | case2 => simp [chunks4]
  | case3 l h1 h2 =>
    exfalso
    rcases l with _ | ⟨a1, _ | ⟨a2, _ | ⟨a3, _ | ⟨a4, t⟩⟩⟩⟩
    · exact h2 rfl
    · simp at h
    · simp at h; omega
    · simp at h; omega
    · exact h1 a1 a2 a3 a4 t rfl

theorem chunks4_short {α : Type} (l : List α) (h0 : l ≠ []) (h : l.length < 4) :
    chunks4 l = [l] := by
  rcases l with _ | ⟨a1, _ | ⟨a2, _ | ⟨a3, _ | ⟨a4, t⟩⟩⟩⟩
  · exact absurd rfl h0
  · rfl
  · rfl
  · rfl
  · simp at h; omega

theorem boundary_step_short (st : List (String × List PyDict))
    (w : List (String × JValue)) (h : w.length < 4) : boundary_step st w = st := by
  rcases w with _ | ⟨a1, _ | ⟨a2, _ | ⟨a3, _ | ⟨a4, t⟩⟩⟩⟩
  · rfl
  · rfl
  · rfl
  · rfl
  · simp at h; omega

theorem chunks10_append {α : Type} (a b : List α) (h : 10 ∣ a.length) :
    chunks10 (a ++ b) = chunks10 a ++ chunks10 b := by
  induction a using chunks10.induct with
  | case1 x1 x2 x3 x4 x5 x6 x7 x8 x9 x10 t ih =>
    simp only [List.cons_append, chunks10, List.append_eq]
    rw [ih (by simpa using h)]
  | case2 => simp [chunks10]
  | case3 l h1 h2 =>
    exfalso
    rcases l with _ | ⟨a1, _ | ⟨a2, _ | ⟨a3, _ | ⟨a4, _ | ⟨a5, _ | ⟨a6, _ | ⟨a7, _ |
      ⟨a8, _ | ⟨a9, _ | ⟨a10, t⟩⟩⟩⟩⟩⟩⟩⟩⟩⟩
    · exact h2 rfl
    · simp at h
    · simp at h; omega
    · simp at h; omega
    · simp at h; omega
    · simp at h; omega
    · simp at h; omega
    · simp at h; omega
    · simp at h; omega
    · simp at h; omega
    · exact h1 a1 a2 a3 a4 a5 a6 a7 a8 a9 a10 t rfl

theorem chunks10_short {α : Type} (l : List α) (h0 : l ≠ []) (h : l.length < 10) :
    chunks10 l = [l] := by
  rcases l with _ | ⟨a1, _ | ⟨a2, _ | ⟨a3, _ | ⟨a4, _ | ⟨a5, _ | ⟨a6, _ | ⟨a7, _ |
    ⟨a8, _ | ⟨a9, _ | ⟨a10, t⟩⟩⟩⟩⟩⟩⟩⟩⟩⟩
  · exact absurd rfl h0
  · rfl
  · rfl
  · rfl
  · rfl
  · rfl
  · rfl
  · rfl
  · rfl
  · rfl
  · simp at h; omega

theorem mpd_step_short (acc : List PyDict)
    (w : List (String × JValue)) (h : w.length < 10) : mpd_step acc w = acc := by
  rcases w with _ | ⟨a1, _ | ⟨a2, _ | ⟨a3, _ | ⟨a4, _ | ⟨a5, _ | ⟨a6, _ | ⟨a7, _ |
    ⟨a8, _ | ⟨a9, _ | ⟨a10, t⟩⟩⟩⟩⟩⟩⟩⟩⟩⟩
  · rfl
  · rfl
  · rfl
  · rfl
  · rfl
  · rfl
  · rfl
  · rfl
  · rfl
  · rfl
  · simp at h; omega

/-- C6: for both stride reconstructors a trailing partial window is silently
discarded rather than raising an error: processing any stream equals
processing its truncation to whole windows (the final run of fewer than 4,
resp. fewer than 10, entries — e.g. a trailing group of 7 for stride 10 —
contributes no record, and the records of the preceding full windows are
unaffected). -/
theorem claim_C6 :
    (∀ l : List (String × JValue),
      process_boundary l = process_boundary (l.take (4 * (l.length / 4)))) ∧
    (∀ l : List (String × JValue),
      process_mpd l = process_mpd (l.take (10 * (l.length / 10)))) := by
  constructor
  · intro l
    conv_lhs => rw [← List.take_append_drop (4 * (l.length / 4)) l]
    have hal : 4 ∣ (l.take (4 * (l.length / 4))).length := by
      rw [List.length_take]; omega
    have hbl : (l.drop (4 * (l.length / 4))).length < 4 := by
      rw [List.length_drop]; omega
    unfold process_boundary
    rw [chunks4_append _ _ hal, List.foldl_append]
    rcases hb : l.drop (4 * (l.length / 4)) with _ | ⟨x, t⟩
    · rfl
    · rw [hb] at hbl
      rw [chunks4_short (x :: t) (by simp) hbl]
      simp only [List.foldl_cons, List.foldl_nil]
      rw [boundary_step_short _ _ hbl]
  · intro l
    conv_lhs => rw [← List.take_append_drop (10 * (l.length / 10)) l]
    have hal : 10 ∣ (l.take (10 * (l.length / 10))).length := by
      rw [List.length_take]; omega
    have hbl : (l.drop (10 * (l.length / 10))).length < 10 := by
      rw [List.length_drop]; omega
    unfold process_mpd
    rw [chunks10_append _ _ hal, List.foldl_append]
    rcases hb : l.drop (10 * (l.length / 10)) with _ | ⟨x, t⟩
    · rfl
    · rw [hb] at hbl
      rw [chunks10_short (x :: t) (by simp) hbl]
      simp only [List.foldl_cons, List.foldl_nil]
      rw [mpd_step_short _ _ hbl]

theorem boundary_step_eq (st : List (String × List PyDict)) (w : List (String × JValue)) :
    boundary_step st w =
      match windowKQ w with
      | none => st
      | some p => bUpsert st p.1 p.2 := by
  rcases w with _ | ⟨g0, _ | ⟨g1, _ | ⟨g2, _ | ⟨g3, _ | ⟨g4, t⟩⟩⟩⟩⟩
  · rfl
  · rfl
  · rfl
  · rfl
  · by_cases hq : isNoneOrBlankStr (normalize_value g1.2)
    · simp [boundary_step, windowKQ, hq]
    · simp [boundary_step, windowKQ, hq]
  · rfl

theorem foldl_boundary_step (ws : List (List (String × JValue)))
    (st : List (String × List PyDict)) :
    ws.foldl boundary_step st =
      (ws.filterMap windowKQ).foldl (fun s p => bUpsert s p.1 p.2) st := by
  induction ws generalizing st with
  | nil => rfl
  | cons w ws ih =>
    rw [List.foldl_cons, boundary_step_eq]
    rcases hw : windowKQ w with _ | p
    · simp [List.filterMap_cons, hw, ih]
    · simp [List.filterMap_cons, hw, ih]

theorem qualsFor_cons_self (k : String) (q : PyDict) (ps : List (String × PyDict)) :
    qualsFor k ((k, q) :: ps) = q :: qualsFor k ps := by
  simp [qualsFor]

theorem qualsFor_cons_ne (k j : String) (q : PyDict) (ps : List (String × PyDict))
    (h : ¬k = j) : qualsFor j ((k, q) :: ps) = qualsFor j ps := by
  simp [qualsFor, h]

theorem groupPairs_congr (s1 s2 : List String) (ps : List (String × PyDict))
    (h : ∀ x, x ∈ s1 ↔ x ∈ s2) : groupPairs s1 ps = groupPairs s2 ps := by
  induction ps generalizing s1 s2 with
  | nil => rfl
  | cons p ps ih =>
    obtain ⟨k, q⟩ := p
    by_cases hk : k ∈ s1
    · simp only [groupPairs, if_pos hk, if_pos ((h k).mp hk)]
      exact ih s1 s2 h
    · simp only [groupPairs, if_neg hk, if_neg (fun hc => hk ((h k).mpr hc))]
      rw [ih (k :: s1) (k :: s2) (fun x => by simp [h x])]

theorem foldl_bUpsert_group (ps : List (String × PyDict)) (st : List (String × List PyDict)) :
    ps.foldl (fun s p => bUpsert s p.1 p.2) st =
      st.map (fun e => (e.1, e.2 ++ qualsFor e.1 ps)) ++
        groupPairs (st.map (fun e => e.1)) ps := by
  induction ps generalizing st with
  | nil => simp [qualsFor, groupPairs]
  | cons p ps ih =>
    obtain ⟨k, q⟩ := p
    rw [List.foldl_cons]
    rw [ih (bUpsert st k q)]
    by_cases hmem : ∃ e ∈ st, e.1 = k
    · have hany : st.any (fun e => e.1 == k) = true := by
        obtain ⟨e, he, hek⟩ := hmem
        exact List.any_eq_true.mpr ⟨e, he, by simpa using hek⟩
      have hb : bUpsert st k q =
          st.map (fun e => if e.1 == k then (e.1, e.2 ++ [q]) else e) := by
        simp [bUpsert, hany]
      have hkeys : (bUpsert st k q).map (fun e => e.1) = st.map (fun e => e.1) := by
        rw [hb, List.map_map]
        apply List.map_congr_left
        intro e _
        by_cases h : e.1 = k <;> simp [h]
      have hk_in : k ∈ st.map (fun e => e.1) := by
        obtain ⟨e, he, hek⟩ := hmem
        exact List.mem_map.mpr ⟨e, he, hek⟩
      rw [hkeys, hb, List.map_map]
      conv_rhs => rw [groupPairs]
      rw [if_pos hk_in]
      congr 1
      apply List.map_congr_left
      intro e _
      by_cases h : e.1 = k
      · simp [Function.comp, h, qualsFor_cons_self, List.append_assoc]
      · simp [Function.comp, h, qualsFor_cons_ne k e.1 q ps (fun hc => h hc.symm)]
    · have hforall : ∀ e ∈ st, ¬e.1 = k := by
        intro e he hek
        exact hmem ⟨e, he, hek⟩
      have hany : st.any (fun e => e.1 == k) = false := by
        rw [List.any_eq_false]
        intro e he
        simpa using hforall e he
      have hb : bUpsert st k q = st ++ [(k, [q])] := by
        simp [bUpsert, hany]
      have hk_out : ¬k ∈ st.map (fun e => e.1) := by
        intro hc
        obtain ⟨e, he, hek⟩ := List.mem_map.mp hc
        exact hforall e he hek
      rw [hb]
      simp only [List.map_append, List.map_cons, List.map_nil]
      conv_rhs => rw [groupPairs]
      rw [if_neg hk_out]
      rw [groupPairs_congr (st.map (fun e => e.1) ++ [k]) (k :: st.map (fun e => e.1)) ps
        (by intro x; simp [or_comm])]
      rw [List.append_assoc]
      congr 1
      apply List.map_congr_left
      intro e he
      rw [qualsFor_cons_ne k e.1 q ps (fun hc => hforall e he hc.symm)]

/-- C5: the stride-4 reconstructor coincides with the claim's description:
a window whose quality normalizes to null or to a blank string produces no
record and no quality entry, and the surviving full windows are grouped by
the string form of their type value — exactly one record per distinct type,
placed at the position of the type's first counted occurrence, holding one
quality entry per window in window order. -/
theorem claim_C5 (entries : List (String × JValue)) :
    process_boundary entries = specBoundary entries := by
  unfold process_boundary specBoundary
  rw [foldl_boundary_step, foldl_bUpsert_group]
  simp

theorem get_or_create_pres (st : MpsState) (v : JValue) :
    (get_or_create_recommended st v).current_system = st.current_system ∧
    (get_or_create_recommended st v).current_actual = st.current_actual ∧
    (get_or_create_recommended st v).systems = st.systems := by
  refine ⟨?_, ?_, ?_⟩ <;>
    (unfold get_or_create_recommended
     by_cases hf : (List.find?
         (fun e => catKeyEq e.1 (if isEmptyStrOrNone v then none else some v))
         (st.recommended_by_cat.getD [])).isSome = true <;>
       simp [hf])

theorem finalize_element_pres (st : MpsState) :
    (finalize_element st).current_system = st.current_system ∧
    (finalize_element st).current_actual = st.current_actual ∧
    (finalize_element st).systems = st.systems := by
  have hg := get_or_create_pres st JValue.null
  rcases he : st.current_element with _ | el
  · simp [finalize_element, he]
  · rcases hr : st.current_recommended with _ | key
    · rcases hr1 : (get_or_create_recommended st JValue.null).current_recommended with _ | key1
      · refine ⟨?_, ?_, ?_⟩ <;> simp [finalize_element, he, hr, hr1, hg.1, hg.2.1, hg.2.2]
      · refine ⟨?_, ?_, ?_⟩ <;> simp [finalize_element, he, hr, hr1, hg.1, hg.2.1, hg.2.2]
    · refine ⟨?_, ?_, ?_⟩ <;> simp [finalize_element, he, hr]

/-- C9: when a system with at least one accumulated actualEnergeticQuality
sub-field is finalized, the finalized record's actualEnergeticQuality is null
when the accumulated quality field equals the empty string, and the
accumulated object attached as-is otherwise; the system is appended to the
output in either case. -/
theorem claim_C9 (st : MpsState) (sys act : PyDict)
    (h1 : st.current_system = some sys) (h2 : st.current_actual = some act) :
    ∃ s2, (finalize_system st).systems = st.systems ++ [s2] ∧
      dictGet s2 "actualEnergeticQuality" =
        some (if qualityIsEmptyStr act then JValue.null else JValue.obj act) := by
  have hp := finalize_element_pres st
  have hcs : (finalize_element st).current_system = some sys := by rw [hp.1, h1]
  have hca : (finalize_element st).current_actual = some act := by rw [hp.2.1, h2]
  have hsys : (finalize_element st).systems = st.systems := hp.2.2
  unfold finalize_system
  simp only [h1, hcs, hca, hsys]
  rcases hrb : (finalize_element st).recommended_by_cat with _ | m
  · by_cases hq : qualityIsEmptyStr act
    · simp only [hq, if_true]
      exact ⟨_, rfl, by rw [dictGet_dictSet_self]⟩
    · simp only [hq, Bool.false_eq_true, if_false]
      exact ⟨_, rfl, by rw [dictGet_dictSet_self]⟩
  · by_cases hm : m.isEmpty
    · by_cases hq : qualityIsEmptyStr act
      · simp only [hq, hm, if_true]
        exact ⟨_, rfl, by rw [dictGet_dictSet_self]⟩
      · simp only [hq, hm, if_true, Bool.false_eq_true, if_false]
        exact ⟨_, rfl, by rw [dictGet_dictSet_self]⟩
    · by_cases hq : qualityIsEmptyStr act
      · simp only [hq, hm, if_true, if_false, Bool.false_eq_true]
        refine ⟨_, rfl, ?_⟩
        rw [dictGet_dictSet_ne _ _ _ _ (by decide), dictGet_dictSet_self]
      · simp only [hq, hm, if_false, Bool.false_eq_true]
        refine ⟨_, rfl, ?_⟩
        rw [dictGet_dictSet_ne _ _ _ _ (by decide), dictGet_dictSet_self]

/-- C9 (witness): the theorem applied to a concrete mid-stream state whose
accumulated quality is the empty string. -/
theorem claim_C9_witness :
    ∃ s2, (finalize_system c9SampleState).systems = c9SampleState.systems ++ [s2] ∧
      dictGet s2 "actualEnergeticQuality" =
        some (if qualityIsEmptyStr [("quality", JValue.str "")] then JValue.null
              else JValue.obj [("quality", JValue.str "")]) :=
  claim_C9 c9SampleState _ _ rfl rfl

/-- C10: on every successful invocation the output fields
calculationsPdfFileContent and photos are determined solely by the attachment
arguments — the PDF field is the base64 encoding of the pdf bytes, and photos
is one (category, note, content) record per image in input order with note
defaulting to the empty string — the final dict assignments overwrite
whatever the flat-entry materialization may have placed under those keys. -/
theorem claim_C10 (entries : List (String × JValue)) (pdf : List Nat)
    (imgs : List Image) (doc : PyDict) (h : transform_json entries pdf imgs = .ok doc) :
    dictGet doc "calculationsPdfFileContent" = some (.str (base64Encode pdf)) ∧
    dictGet doc "photos" = some (.arr (imgs.map photoRec)) := by
  unfold transform_json at h
  simp only [] at h
  rcases hc : coerceAll (attachSections entries) with e | d1
  · rw [hc] at h; simp at h
  · rw [hc] at h
    simp only [] at h
    rcases hd : applyDateFix d1 with e | d2
    · rw [hd] at h; simp at h
    · rw [hd] at h
      simp only [Except.ok.injEq] at h
      subst h
      constructor
      · unfold attachAttachments
        rw [dictGet_dictSet_ne _ _ _ _ (by decide), dictGet_dictSet_self]
      · unfold attachAttachments
        rw [dictGet_dictSet_self]

/-- C10 (witness): the theorem applied to the sample input with the 3-byte
PDF [0, 1, 2] and two images (one without note and category). -/
theorem claim_C10_witness :
    dictGet sampleDoc2 "calculationsPdfFileContent" =
      some (.str (base64Encode [0, 1, 2])) ∧
    dictGet sampleDoc2 "photos" = some (.arr (sample2Images.map photoRec)) :=
  claim_C10 sampleEntries [0, 1, 2] sample2Images sampleDoc2 rfl

/-- C1: feeding the nested-group builder the five-entry stream
buildingServiceSystemType=Heating, modernisationCategory=Cat1,
systemElements name=E1, modernisationCategory=Cat2, systemElements name=E2
(each key carrying the family marker) yields exactly one system whose
recommendedModernisations list holds the Cat1 group with exactly E1 and the
Cat2 group with exactly E2, in first-seen category order: the element open
when the Cat2 key arrives is flushed into the previously selected Cat1
group, not the new one. -/
theorem claim_C1 :
    process_mps
      [(mpsPre ++ "buildingServiceSystemType", .str "Heating"),
       (mpsPre ++ "recommendedModernisations__modernisationCategory", .str "Cat1"),
       (mpsPre ++ "recommendedModernisations__systemElements__name", .str "E1"),
       (mpsPre ++ "recommendedModernisations__modernisationCategory", .str "Cat2"),
       (mpsPre ++ "recommendedModernisations__systemElements__name", .str "E2")] =
    [[("buildingServiceSystemType", .str "Heating"),
      ("recommendedModernisations", .arr
        [.obj [("modernisationCategory", .str "Cat1"),
               ("systemElements", .arr [.obj [("name", .str "E1")]])],
         .obj [("modernisationCategory", .str "Cat2"),
               ("systemElements", .arr [.obj [("name", .str "E2")]])]])]] := rfl

/-- C7: value normalization is idempotent, and each of true, false, null, 1,
1.5 and "text" is returned unchanged. -/
theorem claim_C7 :
    (∀ v, normalize_value (normalize_value v) = normalize_value v) ∧
    normalize_value (.bool true) = .bool true ∧
    normalize_value (.bool false) = .bool false ∧
    normalize_value .null = .null ∧
    normalize_value (.int 1) = .int 1 ∧
    normalize_value (.float (3 / 2)) = .float (3 / 2) ∧
    normalize_value (.str "text") = .str "text" :=
  ⟨normalize_value_idem, rfl, rfl, rfl, rfl, rfl, rfl⟩
